import Mathlib

/-!
# Shallow embedding of the userpypi ownership / visibility / resolution core

This file embeds the access-control and resource-resolution logic of the
`userpypi` Django application (`userpypi/views/packages.py`,
`userpypi/views/releases.py`) as executable Lean definitions and proves
properties of the embedded code.

The external ORM store is modelled as plain lists of records; Django's
`QuerySet.filter` becomes `List.filter`, `QuerySet.get` becomes a match on
the filtered list (zero results raise `DoesNotExist`, more than one raise
`MultipleObjectsReturned`), and Python exceptions (`Http404`,
`User.DoesNotExist`, `UnboundLocalError`, ...) become an explicit error type.
-/

namespace Userpypi

/-- Python-level failures the views can raise.  `http404` carries the message
given to `Http404(...)` (empty for a bare `raise Http404`). -/
inductive PyErr where
  | http404 (msg : String)
  | doesNotExist
  | multipleObjectsReturned
  | unboundLocal
  | keyError
  | nameError
  deriving DecidableEq, Repr

/-- A `django.contrib.auth` user together with the `organization` flag of its
profile (`user.profile.organization`). -/
structure User where
  username : String
  organization : Bool
  deriving DecidableEq, Repr

/-- A `Package` row: its owner (FK rendered as the owner's username), its
name, its `private` flag and its maintainer set (usernames). -/
structure Package where
  owner : String
  name : String
  privateFlag : Bool
  maintainers : List String
  deriving DecidableEq, Repr

/-- A `Release` row: the owning package (denormalised as owner username and
package name), the version string, the `private` and `hidden` flags, the
metadata-schema tag and the `package_info` multi-value mapping. -/
structure Release where
  packageOwner : String
  packageName : String
  version : String
  privateFlag : Bool
  hidden : Bool
  metadataVersion : String
  packageInfo : List (String × List String)
  deriving DecidableEq, Repr

/-- `User.objects.get(username=uname)` hit-or-miss part: the store keeps one
user per username, so the first match is the unique one. -/
def userGet (users : List User) (uname : String) : Option User :=
  users.find? (fun u => u.username == uname)

/-! ## Ownership resolvers (`get_owner`)

Both mixins memoize the resolved owner on the view instance (`self.owner`).
The embedded resolver takes the current cached value and the `owner` URL
kwarg and returns the outcome, the new cached value, and the number of
store lookups performed. -/

/-- `OwnerObjectMixin.get_owner` (packages.py): return the cached owner if it
is a `User`; otherwise resolve the `owner` kwarg.  An absent kwarg resolves
to `None`; an unknown username raises `User.DoesNotExist` (uncaught). -/
def packagesGetOwner (selfOwner : Option User) (kwarg : Option String)
    (users : List User) : Except PyErr (Option User) × Option User × Nat :=
  match selfOwner with
  | some u => (.ok (some u), some u, 0)
  | none =>
    match kwarg with
    | some uname =>
      match userGet users uname with
      | some u => (.ok (some u), some u, 1)
      | none => (.error .doesNotExist, none, 1)
    | none => (.ok none, none, 0)

/-- `ReleaseOwnerObjectMixin.get_owner` (releases.py): return the cached
owner if it is a `User`; otherwise resolve the `owner` kwarg.  An absent
kwarg raises `Http404`; an unknown username is caught and re-raised as
`Http404`. -/
def releasesGetOwner (selfOwner : Option User) (kwarg : Option String)
    (users : List User) : Except PyErr (Option User) × Option User × Nat :=
  match selfOwner with
  | some u => (.ok (some u), some u, 0)
  | none =>
    match kwarg with
    | some uname =>
      match userGet users uname with
      | some u => (.ok (some u), some u, 1)
      | none => (.error (.http404 ""), none, 1)
    | none => (.error (.http404 ""), none, 0)

/-! ## Visibility filters (`get_queryset`) -/

/-- `OwnerObjectMixin.get_queryset` (packages.py) with the owner already
resolved: requester ≠ owner and organization ⇒ all of the owner's packages;
requester ≠ owner and not organization ⇒ the owner's non-private packages;
requester = owner ⇒ all of the owner's packages. -/
def packagesGetQueryset (requester owner : User) (store : List Package) :
    List Package :=
  if requester ≠ owner then
    if owner.organization then
      store.filter (fun p => p.owner == owner.username)
    else
      store.filter (fun p => p.owner == owner.username && !p.privateFlag)
  else
    store.filter (fun p => p.owner == owner.username)

/-- `ReleaseOwnerObjectMixin.get_queryset` (releases.py) with the owner
already resolved.  `params` is assigned only inside the
`requester != owner` branch; when requester = owner the final
`filter(**params)` raises `UnboundLocalError`. -/
def releasesGetQueryset (requester owner : User) (store : List Release) :
    Except PyErr (List Release) :=
  if requester ≠ owner then
    if owner.organization then
      .ok (store.filter (fun r => r.packageOwner == owner.username))
    else
      .ok (store.filter
        (fun r => r.packageOwner == requester.username && !r.privateFlag))
  else
    .error .unboundLocal

/-! ## Resource locators (`get_object` of the detail views) -/

/-- Outcome of `PackageDetailView.get_object` combined with
`render_to_response`'s redirect short-circuit. -/
inductive LocateResult where
  | found (p : Package)
  | redirectTo (url : String)
  | notFound (msg : String)
  | err (e : PyErr)
  deriving DecidableEq, Repr

/-- Python's `str.rstrip('/')`: drop every trailing slash. -/
def rstripSlash (s : String) : String :=
  String.mk ((s.data.reverse.dropWhile (fun c => c = '/')).reverse)

/-- `PackageDetailView.get_object` (packages.py) with the owner already
resolved and the configuration (`PROXY_MISSING`, `PROXY_BASE_URL`) passed
explicitly.  The visibility queryset is filtered by exact name; an empty
result (`DoesNotExist`) yields either a redirect to
`PROXY_BASE_URL.rstrip('/') + '/' + name + '/'` or `Http404`, and more than
one result raises `MultipleObjectsReturned` (uncaught). -/
def packageGetObject (proxyMissing : Bool) (proxyBaseUrl : String)
    (requester owner : User) (name : String) (store : List Package) :
    LocateResult :=
  match (packagesGetQueryset requester owner store).filter
      (fun p => p.name == name) with
  | [p] => .found p
  | [] =>
    if proxyMissing then
      .redirectTo (rstripSlash proxyBaseUrl ++ "/" ++ name ++ "/")
    else
      .notFound "No package found matching the query"
  | _ => .err .multipleObjectsReturned

/-- The URL the spec's words describe literally: `PROXY_BASE_URL` followed
by `/<name>/`. -/
def specProxyUrl (proxyBaseUrl : String) (name : String) : String :=
  proxyBaseUrl ++ "/" ++ name ++ "/"

/-- `ReleaseDetailView.get_object` (releases.py) with the owner already
resolved.  The visibility queryset (which itself can raise, see
`releasesGetQueryset`) is filtered by `package__name` only — the `version`
URL kwarg is never consulted — and `queryset.get()` is applied: more than
one row raises `MultipleObjectsReturned` (uncaught), and on zero rows the
handler's own `raise Http404(_(u"No %(verbose_name)s ...") % ...)` raises
`NameError` first, because `_` is never imported in releases.py. -/
def releaseGetObject (requester owner : User) (pkgName : String)
    (version : String) (store : List Release) : Except PyErr Release :=
  match releasesGetQueryset requester owner store with
  | .error e => .error e
  | .ok qs =>
    match qs.filter (fun r => r.packageName == pkgName) with
    | [r] => .ok r
    | [] => .error .nameError
    | _ => .error .multipleObjectsReturned

/-! ## Metadata form conversion (`manage_metadata`) -/

/-- A form initial value: a joined single string or a kept sequence. -/
inductive InitialVal where
  | single (s : String)
  | multi (vs : List String)
  deriving DecidableEq, Repr

/-- The initial-values loop of `manage_metadata` (releases.py): for each
`(key, values)` of `release.package_info.iterlists()`, keep the value list
when the key is a multivalue key, else join the values with newlines. -/
def metadataToInitial (info : List (String × List String))
    (multivalue : List String) : List (String × InitialVal) :=
  info.map (fun kv =>
    if kv.1 ∈ multivalue then (kv.1, .multi kv.2)
    else (kv.1, .single (String.intercalate "\n" kv.2)))

/-- A cleaned form value: a string, a non-string iterable of strings, or
anything else (skipped by the update loop). -/
inductive FormValue where
  | str (s : String)
  | seq (vs : List String)
  | scalar
  deriving DecidableEq, Repr

/-- `MultiValueDict.__getitem__`-style lookup on the embedded
`package_info` (keys are unique, first match wins). -/
def mvdGet : List (String × List String) → String → Option (List String)
  | [], _ => none
  | kv :: rest, k => if kv.1 = k then some kv.2 else mvdGet rest k

/-- `MultiValueDict.setlist` / `__setitem__`: replace the (unique) entry for
the key, or append a fresh entry. -/
def mvdSet : List (String × List String) → String → List String →
    List (String × List String)
  | [], k, vs => [(k, vs)]
  | kv :: rest, k, vs =>
    if kv.1 = k then (k, vs) :: rest else kv :: mvdSet rest k vs

/-- The cleaned-data loop of `manage_metadata` (releases.py): a string value
becomes the key's sole value (`package_info[key] = value`), a non-string
iterable replaces the key's list (`setlist(key, list(value))`), anything
else is skipped. -/
def applyFormResult (cleaned : List (String × FormValue))
    (info : List (String × List String)) : List (String × List String) :=
  cleaned.foldl (fun acc kv =>
    match kv.2 with
    | .str s => mvdSet acc kv.1 [s]
    | .seq vs => mvdSet acc kv.1 vs
    | .scalar => acc) info

/-- The metadata save step of `manage_metadata`: mutate
`release.package_info` by the cleaned-data loop, then `release.save()`
(the `Bool` records that the release was persisted). -/
def manageMetadataApply (cleaned : List (String × FormValue))
    (r : Release) : Release × Bool :=
  ({ r with packageInfo := applyFormResult cleaned r.packageInfo }, true)

/-! ## Batch editors (`manage`, `manage_versions`) -/

/-- How a form or formset reaches the rendered template: still bound to the
submitted POST data (and so carrying its validation errors), or freshly
constructed from the stored rows, without the submission. -/
inductive FormsetRender where
  | boundWithData
  | freshUnbound
  deriving DecidableEq, Repr

/-- The state `manage` (packages.py) edits: the package's own form-editable
fields (kept abstract as one value) and its maintainer rows. -/
structure PkgEditState where
  fields : String
  maintainerRows : List String
  deriving DecidableEq, Repr

/-- A request to `manage` (packages.py).  Form and formset validation are
performed by `userpypi.forms` (outside this excerpt), so the validation
verdicts travel with the request: `formValid` for `PackageForm.is_valid()`
and one verdict per maintainer row, the formset being valid iff all rows
are. -/
structure PkgManageRequest where
  post : Bool
  formData : String
  formValid : Bool
  maintainerData : List String
  maintainerRowsValid : List Bool
  deriving DecidableEq, Repr

/-- How a request to `manage` (packages.py) ends: a post-save redirect, or
a render of the page carrying the package form and the maintainer formset
in their respective binding states. -/
inductive PkgManageOutcome where
  | redirect (target : String)
  | render (form maintainerFormset : FormsetRender)
  deriving DecidableEq, Repr

/-- `manage` (packages.py): if the package form validates,
`form.save(commit=False)` builds the updated object in memory only; the
maintainer formset is then validated, and only if it also validates are
`obj.save()` and `maintainer_formset.save()` executed, followed by a
redirect.  If the maintainer formset is invalid, the stored state is
untouched and the page renders both still-bound forms (with their errors).
If the package form itself is invalid on a POST, `maintainer_formset` is
never assigned on that path, so building the render context raises
`UnboundLocalError`.  On GET both forms are freshly constructed. -/
def packagesManage (req : PkgManageRequest) (st : PkgEditState) :
    Except PyErr (PkgEditState × PkgManageOutcome) :=
  if req.post then
    if req.formValid then
      if req.maintainerRowsValid.all id then
        .ok ({ fields := req.formData, maintainerRows := req.maintainerData },
          .redirect "userpypi-package-manage")
      else .ok (st, .render .boundWithData .boundWithData)
    else .error .unboundLocal
  else .ok (st, .render .freshUnbound .freshUnbound)

/-- One row of the `manage_versions` inline formset: a release's `hidden`
flag (the only editable field, `extra = 0` so only existing rows). -/
structure VersionRow where
  version : String
  hidden : Bool
  deriving DecidableEq, Repr

/-- Zip the submitted `hidden` values onto the existing rows
(`formset.save()` of a `fields=('hidden',)`, `extra=0` inline formset). -/
def saveVersionRows (rows : List VersionRow) (newHidden : List Bool) :
    List VersionRow :=
  (rows.zip newHidden).map (fun rh => { rh.1 with hidden := rh.2 })

/-- How a request to `manage_versions` ends: a post-save redirect, or a
render carrying the formset in its binding state. -/
inductive VersionsOutcome where
  | redirect (target : String)
  | render (formset : FormsetRender)
  deriving DecidableEq, Repr

/-- `manage_versions` (packages.py): the whole formset is validated
(`formset.is_valid()` iff every row validates); only then is
`formset.save()` run and the post-save redirect issued.  On a failed
validation no row changes, but control falls through to the line that
rebinds `formset` to a fresh unbound formset before rendering, so the
submitted data and its validation errors are discarded. -/
def manageVersions (post : Bool) (rowsValid : List Bool)
    (newHidden : List Bool) (rows : List VersionRow) :
    List VersionRow × VersionsOutcome :=
  if post then
    if rowsValid.all id then
      (saveVersionRows rows newHidden, .redirect "post_save_redirect")
    else (rows, .render .freshUnbound)
  else (rows, .render .freshUnbound)

/-! ## Mutating editors' parent-package resolution

Every mutating release/version editor fetches its parent with
`get_object_or_404(Package, owner=request.user, name=package)`: the
package must be owned by the requester, and the path-supplied owner is
never part of the lookup.  How the path owner reaches each view differs:
`manage_versions` (packages.py) receives it inside `**kwargs` and pops it;
`manage_files` and `upload_file` (releases.py) leave it unread in
`**kwargs`; `manage` and `manage_metadata` (releases.py) declare `owner`
as a named parameter and then still run `kwargs.pop('owner')`, which
raises `KeyError` on every invocation because a keyword argument matching
a named parameter binds to the parameter and never lands in `**kwargs`. -/

/-- Python's `dict.pop(key)` with no default: the removed value and the
remaining dict, or `KeyError` when the key is absent. -/
def kwargsPop (kwargs : List (String × String)) (key : String) :
    Except PyErr (String × List (String × String)) :=
  match kwargs.find? (fun kv => kv.1 == key) with
  | some kv => .ok (kv.2, kwargs.filter (fun kv2 => kv2.1 != key))
  | none => .error .keyError

/-- `get_object_or_404(Package, owner=request.user, name=package)`. -/
def getPackageOr404 (packages : List Package) (requester : String)
    (name : String) : Except PyErr Package :=
  match packages.filter (fun p => p.owner == requester && p.name == name) with
  | [p] => .ok p
  | [] => .error (.http404 "No Package matches the given query.")
  | _ => .error .multipleObjectsReturned

/-- Modelled from the spec: `Package.get_release(version)` lives in
`userpypi/models.py`, which is not part of this excerpt.  The spec's data
model says a Release "belongs to exactly one Package; has a version
identifier (unique per package)", so the lookup returns the package's
release with that exact version, if any. -/
def packageGetRelease (releases : List Release) (pkg : Package)
    (version : String) : Option Release :=
  releases.find? (fun r =>
    r.packageOwner == pkg.owner && r.packageName == pkg.name &&
      r.version == version)

/-- The owner-scoped fetch shared by the release editors: the requester's
own package of that name or `Http404`, then `get_release(version)` or
`Http404`.  `pathOwner` is the unread path owner. -/
def resolveEditRelease (pathOwner : String) (requester : String)
    (pkgName version : String) (packages : List Package)
    (releases : List Release) : Except PyErr Release :=
  let _ := pathOwner
  match getPackageOr404 packages requester pkgName with
  | .error e => .error e
  | .ok pkg =>
    match packageGetRelease releases pkg version with
    | some r => .ok r
    | none =>
      .error (.http404
        ("Version " ++ version ++ " does not exist for " ++ pkgName))

/-- Parent resolution of `manage` (releases.py): the view signature is
`(request, owner, package, version, **kwargs)`, so the owner URL argument
binds to the named `owner` parameter and `kwargs` never holds the key; the
`kwargs.pop('owner')` on the first line raises `KeyError` before the
package is ever fetched. -/
def releasesManageResolve (pathOwner requester pkgName version : String)
    (packages : List Package) (releases : List Release) :
    Except PyErr Release :=
  match kwargsPop [] "owner" with
  | .error e => .error e
  | .ok _ =>
    resolveEditRelease pathOwner requester pkgName version packages releases

/-- Parent resolution of `manage_metadata` (releases.py): same signature
shape as `manage` — `owner` is a named parameter — so its
`kwargs.pop('owner')` raises `KeyError` on every invocation. -/
def manageMetadataResolve (pathOwner requester pkgName version : String)
    (packages : List Package) (releases : List Release) :
    Except PyErr Release :=
  match kwargsPop [] "owner" with
  | .error e => .error e
  | .ok _ =>
    resolveEditRelease pathOwner requester pkgName version packages releases

/-- Parent resolution of `manage_files` (releases.py): no pop at all; the
owner URL argument sits unread in `**kwargs`. -/
def manageFilesResolve (pathOwner requester pkgName version : String)
    (packages : List Package) (releases : List Release) :
    Except PyErr Release :=
  resolveEditRelease pathOwner requester pkgName version packages releases

/-- Parent resolution of `upload_file` (releases.py): no pop at all; the
owner URL argument sits unread in `**kwargs`. -/
def uploadFileResolve (pathOwner requester pkgName version : String)
    (packages : List Package) (releases : List Release) :
    Except PyErr Release :=
  resolveEditRelease pathOwner requester pkgName version packages releases

/-- Parent resolution of `manage_versions` (packages.py): `owner` is not a
named parameter there, so the URL's owner value lands in `**kwargs`, is
popped successfully and discarded, and the package is fetched with
`owner=request.user`. -/
def manageVersionsResolve (pathOwner requester pkgName : String)
    (packages : List Package) : Except PyErr Package :=
  match kwargsPop [("owner", pathOwner)] "owner" with
  | .error e => .error e
  | .ok _ => getPackageOr404 packages requester pkgName

/-! ## Concrete fixtures used by witnesses and counterexamples -/

/-- A plain (non-organization) user. -/
def uAlice : User := { username := "alice", organization := false }

/-- A second plain user, owner of the fixture packages. -/
def uBob : User := { username := "bob", organization := false }

/-- The same owner with the organization flag set on the profile. -/
def uBobOrg : User := { username := "bob", organization := true }

/-- A public package of `uBob`. -/
def pkgPub : Package :=
  { owner := "bob", name := "pub", privateFlag := false, maintainers := [] }

/-- A private package of `uBob`. -/
def pkgPriv : Package :=
  { owner := "bob", name := "sec", privateFlag := true, maintainers := [] }

/-- A package of `uBob` that lists `alice` as a maintainer. -/
def pkgShared : Package :=
  { owner := "bob", name := "pkg", privateFlag := false,
    maintainers := ["alice"] }

/-- The single release of `pkgShared`, version 1.0. -/
def rel10 : Release :=
  { packageOwner := "bob", packageName := "pkg", version := "1.0",
    privateFlag := false, hidden := false, metadataVersion := "1.0",
    packageInfo := [] }

/-- A release whose `package_info` holds three keys, for the metadata-edit
fixtures. -/
def relMeta : Release :=
  { rel10 with
    packageInfo := [("summary", ["old"]), ("classifier", ["A", "B"]),
      ("keep", ["z"])] }

/-- Cleaned form data submitting a string for `summary` and a list for
`classifier`. -/
def cleanedEx : List (String × FormValue) :=
  [("summary", .str "hello"), ("classifier", .seq ["A", "C"])]

/-- A `manage` POST whose package form validates but whose maintainer
formset has an invalid row. -/
def reqInvalidMaint : PkgManageRequest :=
  { post := true, formData := "changed fields", formValid := true,
    maintainerData := ["m2"], maintainerRowsValid := [true, false] }

/-- A `manage` POST whose package form itself fails validation. -/
def reqInvalidForm : PkgManageRequest :=
  { post := true, formData := "changed fields", formValid := false,
    maintainerData := [], maintainerRowsValid := [] }

/-- The stored package-edit state before `reqInvalidMaint` is handled. -/
def stBefore : PkgEditState :=
  { fields := "original fields", maintainerRows := ["m1"] }

/-- Two stored release rows for the version batch editor. -/
def vRows : List VersionRow :=
  [{ version := "1.0", hidden := false }, { version := "2.0", hidden := false }]

/-! # Theorems -/

/-- C1: for every requester and resolved owner, if the requester equals the
owner the package visibility predicate admits every Package owned by that
owner (including private ones); otherwise, if the owner's profile has the
organization flag set, it admits every Package owned by that owner;
otherwise it admits exactly the owner's Packages whose private flag is
false. -/
theorem package_visibility_cases (requester owner : User)
    (store : List Package) (p : Package) :
    (requester = owner →
      (p ∈ packagesGetQueryset requester owner store ↔
        p ∈ store ∧ p.owner = owner.username)) ∧
    (requester ≠ owner → owner.organization = true →
      (p ∈ packagesGetQueryset requester owner store ↔
        p ∈ store ∧ p.owner = owner.username)) ∧
    (requester ≠ owner → owner.organization = false →
      (p ∈ packagesGetQueryset requester owner store ↔
        p ∈ store ∧ p.owner = owner.username ∧ p.privateFlag = false)) := by
  refine ⟨fun h => ?_, fun h horg => ?_, fun h horg => ?_⟩
  · simp [packagesGetQueryset, h, List.mem_filter]
  · simp [packagesGetQueryset, h, horg, List.mem_filter]
  · simp [packagesGetQueryset, h, horg, List.mem_filter, and_assoc]

/-- Witness for C1: `alice ≠ bob`, `bob` is no organization, and the
private package is admitted exactly when its private flag is false (here:
it is not admitted). -/
theorem package_visibility_cases_witness :
    uAlice ≠ uBob ∧ uBob.organization = false ∧
    (pkgPriv ∈ packagesGetQueryset uAlice uBob [pkgPub, pkgPriv] ↔
      pkgPriv ∈ [pkgPub, pkgPriv] ∧ pkgPriv.owner = uBob.username ∧
        pkgPriv.privateFlag = false) :=
  ⟨by decide, rfl,
    (package_visibility_cases uAlice uBob [pkgPub, pkgPriv] pkgPriv).2.2
      (by decide) rfl⟩

/-- C2 (code bug): when the requester equals the resolved owner,
`ReleaseOwnerObjectMixin.get_queryset` never assigns `params` — the code
raises `UnboundLocalError` instead of returning all of the owner's
releases. -/
theorem owner_release_queryset_raises (requester : User)
    (store : List Release) :
    releasesGetQueryset requester requester store = .error .unboundLocal := by
  simp [releasesGetQueryset]

/-- C5: the package-listing resolver treats an absent path owner as "no
owner constraint" (succeeds with `None`, no store lookup, no error), while
the release-listing resolver signals `Http404` on an absent path owner and
also on a present but unknown username. -/
theorem owner_resolution_modes (users : List User) (uname : String)
    (h : userGet users uname = none) :
    packagesGetOwner none none users = (.ok none, none, 0) ∧
    (releasesGetOwner none none users).1 = .error (.http404 "") ∧
    (releasesGetOwner none (some uname) users).1 = .error (.http404 "") := by
  refine ⟨rfl, rfl, ?_⟩
  simp [releasesGetOwner, h]

/-- Witness for C5 at the empty user store and the username `ghost`. -/
theorem owner_resolution_modes_witness :
    userGet [] "ghost" = none ∧
    (packagesGetOwner none none [] = (.ok none, none, 0) ∧
     (releasesGetOwner none none []).1 = .error (.http404 "") ∧
     (releasesGetOwner none (some "ghost") []).1 = .error (.http404 "")) :=
  ⟨rfl, owner_resolution_modes [] "ghost" rfl⟩

/-- C9: once an owner has been resolved and cached on the view, both
resolvers return that same cached owner unchanged, leave the cache as it
is, and perform zero store lookups. -/
theorem owner_resolution_idempotent (u : User) (kwarg : Option String)
    (users : List User) :
    packagesGetOwner (some u) kwarg users = (.ok (some u), some u, 0) ∧
    releasesGetOwner (some u) kwarg users = (.ok (some u), some u, 0) :=
  ⟨rfl, rfl⟩

/-- C3 counterexample: with `PROXY_BASE_URL = "http://proxy/"` (a base URL
carrying a trailing slash) and no visible package named `missing`, the code
redirects to `http://proxy/missing/` — the trailing slash is first removed
by `rstrip('/')` — which differs from the URL formed literally from
`PROXY_BASE_URL` followed by `/missing/`. -/
theorem proxy_redirect_slash_counterexample :
    packageGetObject true "http://proxy/" uAlice uBob "missing" [] =
      .redirectTo "http://proxy/missing/" ∧
    specProxyUrl "http://proxy/" "missing" = "http://proxy//missing/" ∧
    ("http://proxy/missing/" : String) ≠ "http://proxy//missing/" :=
  ⟨by decide, by decide, by decide⟩

/-- C3 (amended): for every configuration, owner, requester and package
name with no visible package of that name, `PackageDetailView` returns a
Redirect to `PROXY_BASE_URL` with its trailing slashes removed followed by
`/<name>/` when `PROXY_MISSING` is true (raising nothing), and signals
`Http404` with a message naming the missing resource type (`package`) when
`PROXY_MISSING` is false. -/
theorem locate_package_miss (pm : Bool) (base : String)
    (requester owner : User) (name : String) (store : List Package)
    (h : (packagesGetQueryset requester owner store).filter
      (fun p => p.name == name) = []) :
    packageGetObject pm base requester owner name store =
      if pm then .redirectTo (rstripSlash base ++ "/" ++ name ++ "/")
      else .notFound "No package found matching the query" := by
  unfold packageGetObject
  rw [h]

/-- Witness for C3 (amended): the empty store has no package named
`missing`; both configuration values produce the stated outcomes. -/
theorem locate_package_miss_witness :
    (packagesGetQueryset uAlice uBob []).filter
      (fun p => p.name == "missing") = [] ∧
    packageGetObject true "http://proxy" uAlice uBob "missing" [] =
      (if true then
        LocateResult.redirectTo (rstripSlash "http://proxy" ++ "/" ++
          "missing" ++ "/")
      else LocateResult.notFound "No package found matching the query") ∧
    packageGetObject false "http://proxy" uAlice uBob "missing" [] =
      (if false then
        LocateResult.redirectTo (rstripSlash "http://proxy" ++ "/" ++
          "missing" ++ "/")
      else LocateResult.notFound "No package found matching the query") :=
  ⟨rfl, locate_package_miss true "http://proxy" uAlice uBob "missing" [] rfl,
    locate_package_miss false "http://proxy" uAlice uBob "missing" [] rfl⟩

/-- C4 (code bug): `ReleaseDetailView.get_object` never filters by the
requested version.  With owner `bob` (an organization), one visible release
of version `1.0` for package `pkg`, requesting version `9.9` returns the
`1.0` release instead of signalling `NotFound`. -/
theorem locate_release_ignores_version :
    releaseGetObject uAlice uBobOrg "pkg" "9.9" [rel10] = .ok rel10 ∧
    rel10.version ≠ "9.9" :=
  ⟨rfl, by decide⟩

/-- C6: `metadata_to_initial` keeps the full value sequence for every key
in the multivalue set, joins every other key's values with newlines, and on
the concrete example yields
`{classifier: [A, B], summary: "x\ny"}`. -/
theorem metadata_to_initial_spec (info : List (String × List String))
    (multivalue : List String) (k : String) (vs : List String)
    (h : (k, vs) ∈ info) :
    ((k ∈ multivalue →
      (k, InitialVal.multi vs) ∈ metadataToInitial info multivalue) ∧
     (k ∉ multivalue →
      (k, InitialVal.single (String.intercalate "\n" vs)) ∈
        metadataToInitial info multivalue)) ∧
    metadataToInitial [("classifier", ["A", "B"]), ("summary", ["x", "y"])]
        ["classifier"] =
      [("classifier", .multi ["A", "B"]), ("summary", .single "x\ny")] := by
  refine ⟨⟨fun hk => ?_, fun hk => ?_⟩, by decide⟩
  · have hmem := List.mem_map_of_mem (f := fun kv : String × List String =>
      if kv.1 ∈ multivalue then (kv.1, InitialVal.multi kv.2)
      else (kv.1, InitialVal.single (String.intercalate "\n" kv.2))) h
    simpa [metadataToInitial, hk] using hmem
  · have hmem := List.mem_map_of_mem (f := fun kv : String × List String =>
      if kv.1 ∈ multivalue then (kv.1, InitialVal.multi kv.2)
      else (kv.1, InitialVal.single (String.intercalate "\n" kv.2))) h
    simpa [metadataToInitial, hk] using hmem

/-- Witness for C6: `summary` is a key of the example metadata, it is not a
multivalue key, and its joined initial value is present in the output. -/
theorem metadata_to_initial_spec_witness :
    ("summary", ["x", "y"]) ∈
      ([("classifier", ["A", "B"]), ("summary", ["x", "y"])] :
        List (String × List String)) ∧
    ("summary", InitialVal.single (String.intercalate "\n" ["x", "y"])) ∈
      metadataToInitial [("classifier", ["A", "B"]), ("summary", ["x", "y"])]
        ["classifier"] :=
  ⟨by decide,
    (metadata_to_initial_spec
      [("classifier", ["A", "B"]), ("summary", ["x", "y"])] ["classifier"]
      "summary" ["x", "y"] (by decide)).1.2 (by decide)⟩

/-- Looking up the key just set yields exactly the new value list. -/
theorem mvdGet_mvdSet_self (d : List (String × List String)) (k : String)
    (vs : List String) : mvdGet (mvdSet d k vs) k = some vs := by
  induction d with
  | nil => simp [mvdSet, mvdGet]
  | cons kv rest ih =>
    by_cases h : kv.1 = k
    · simp [mvdSet, h, mvdGet]
    · simp [mvdSet, h, mvdGet, ih]

/-- Setting one key leaves the lookup of every other key unchanged. -/
theorem mvdGet_mvdSet_other (d : List (String × List String))
    (k k' : String) (vs : List String) (h : k ≠ k') :
    mvdGet (mvdSet d k' vs) k = mvdGet d k := by
  induction d with
  | nil => simp [mvdSet, mvdGet, Ne.symm h]
  | cons kv rest ih =>
    by_cases hk : kv.1 = k'
    · simp [mvdSet, hk, mvdGet, Ne.symm h]
    · by_cases hk2 : kv.1 = k <;> simp [mvdSet, hk, mvdGet, hk2, h, ih]

/-- Unfolding one step of the cleaned-data loop. -/
theorem applyFormResult_cons (kv : String × FormValue)
    (rest : List (String × FormValue)) (info : List (String × List String)) :
    applyFormResult (kv :: rest) info =
      applyFormResult rest
        (match kv.2 with
          | .str s => mvdSet info kv.1 [s]
          | .seq vs => mvdSet info kv.1 vs
          | .scalar => info) := rfl

/-- Keys that never occur in the cleaned data are untouched by the
cleaned-data loop. -/
theorem applyFormResult_frame (cleaned : List (String × FormValue))
    (info : List (String × List String)) (k : String)
    (h : k ∉ cleaned.map Prod.fst) :
    mvdGet (applyFormResult cleaned info) k = mvdGet info k := by
  induction cleaned generalizing info with
  | nil => rfl
  | cons kv rest ih =>
    have hne : k ≠ kv.1 := by
      intro hEq
      exact h (by simp [hEq])
    have hrest : k ∉ rest.map Prod.fst := by
      intro hmem
      exact h (by simp [hmem])
    rw [applyFormResult_cons]
    cases hv : kv.2 with
    | str s => rw [ih _ hrest, mvdGet_mvdSet_other _ _ _ _ hne]
    | seq vs => rw [ih _ hrest, mvdGet_mvdSet_other _ _ _ _ hne]
    | scalar => rw [ih _ hrest]

/-- A key submitted with a string value ends up mapped to exactly that
single string (assuming, as for a Python dict, that the cleaned-data keys
are distinct). -/
theorem applyFormResult_str (cleaned : List (String × FormValue))
    (info : List (String × List String)) (k s : String)
    (hnd : (cleaned.map Prod.fst).Nodup)
    (h : (k, FormValue.str s) ∈ cleaned) :
    mvdGet (applyFormResult cleaned info) k = some [s] := by
  induction cleaned generalizing info with
  | nil => cases h
  | cons kv rest ih =>
    rw [List.map_cons, List.nodup_cons] at hnd
    rcases List.mem_cons.mp h with hEq | hmem
    · rw [applyFormResult_cons, ← hEq]
      have hk : k ∉ rest.map Prod.fst := by
        have := hnd.1
        rwa [← hEq] at this
      rw [applyFormResult_frame rest _ k hk, mvdGet_mvdSet_self]
    · rw [applyFormResult_cons]
      exact ih _ hnd.2 hmem

/-- A key submitted with a non-string iterable value ends up mapped to
exactly that list of values (assuming distinct cleaned-data keys). -/
theorem applyFormResult_seq (cleaned : List (String × FormValue))
    (info : List (String × List String)) (k : String) (vs : List String)
    (hnd : (cleaned.map Prod.fst).Nodup)
    (h : (k, FormValue.seq vs) ∈ cleaned) :
    mvdGet (applyFormResult cleaned info) k = some vs := by
  induction cleaned generalizing info with
  | nil => cases h
  | cons kv rest ih =>
    rw [List.map_cons, List.nodup_cons] at hnd
    rcases List.mem_cons.mp h with hEq | hmem
    · rw [applyFormResult_cons, ← hEq]
      have hk : k ∉ rest.map Prod.fst := by
        have := hnd.1
        rwa [← hEq] at this
      rw [applyFormResult_frame rest _ k hk, mvdGet_mvdSet_self]
    · rw [applyFormResult_cons]
      exact ih _ hnd.2 hmem

/-- C7: the metadata save step maps every key submitted with a string value
to exactly that single string, replaces every key submitted with a
non-string iterable by the iterable's contents in order, leaves every key
not appearing in the cleaned data unchanged, and persists the Release
(cleaned-data keys are distinct, as in a Python dict). -/
theorem apply_form_result_spec (cleaned : List (String × FormValue))
    (r : Release) (k s : String) (vs : List String)
    (hnd : (cleaned.map Prod.fst).Nodup) :
    ((k, FormValue.str s) ∈ cleaned →
      mvdGet (manageMetadataApply cleaned r).1.packageInfo k = some [s]) ∧
    ((k, FormValue.seq vs) ∈ cleaned →
      mvdGet (manageMetadataApply cleaned r).1.packageInfo k = some vs) ∧
    (k ∉ cleaned.map Prod.fst →
      mvdGet (manageMetadataApply cleaned r).1.packageInfo k =
        mvdGet r.packageInfo k) ∧
    (manageMetadataApply cleaned r).2 = true :=
  ⟨fun h => applyFormResult_str cleaned r.packageInfo k s hnd h,
   fun h => applyFormResult_seq cleaned r.packageInfo k vs hnd h,
   fun h => applyFormResult_frame cleaned r.packageInfo k h,
   rfl⟩

/-- Witness for C7 on the fixture release: `summary` becomes `[hello]`,
`classifier` becomes `[A, C]`, `keep` is untouched, and the release is
persisted. -/
theorem apply_form_result_spec_witness :
    (cleanedEx.map Prod.fst).Nodup ∧
    mvdGet (manageMetadataApply cleanedEx relMeta).1.packageInfo "summary" =
      some ["hello"] ∧
    mvdGet (manageMetadataApply cleanedEx relMeta).1.packageInfo
      "classifier" = some ["A", "C"] ∧
    mvdGet (manageMetadataApply cleanedEx relMeta).1.packageInfo "keep" =
      mvdGet relMeta.packageInfo "keep" ∧
    (manageMetadataApply cleanedEx relMeta).2 = true :=
  ⟨by decide,
   (apply_form_result_spec cleanedEx relMeta "summary" "hello" []
     (by decide)).1 (by decide),
   (apply_form_result_spec cleanedEx relMeta "classifier" "" ["A", "C"]
     (by decide)).2.1 (by decide),
   (apply_form_result_spec cleanedEx relMeta "keep" "" []
     (by decide)).2.2.1 (by decide),
   rfl⟩

/-- C8 (code bug): the batch editors never persist on a validation
failure, and the maintainer-invalid path of `manage` does re-render the
still-bound forms with the stored state unchanged — but the claim's "on
any validation failure the same form is re-rendered with errors" fails
twice: a POST to `manage` whose package form is invalid raises
`UnboundLocalError` (so the package fields are also not persisted there),
and a version-batch POST with an invalid row re-renders a freshly rebound
unbound formset, discarding the submitted data and its errors (the rows
themselves are returned unchanged). -/
theorem batch_editor_failure_paths :
    packagesManage reqInvalidForm stBefore = .error .unboundLocal ∧
    packagesManage reqInvalidMaint stBefore =
      .ok (stBefore, .render .boundWithData .boundWithData) ∧
    manageVersions true [true, false] [true, true] vRows =
      (vRows, .render .freshUnbound) ∧
    FormsetRender.freshUnbound ≠ FormsetRender.boundWithData :=
  ⟨rfl, rfl, rfl, by decide⟩

/-- C10 (code bug): `manage` and `manage_metadata` (releases.py) declare
`owner` as a named parameter and still pop it from `**kwargs`, so every
invocation raises `KeyError` before any package resolution — they can
never signal `NotFound` as claimed.  The remaining three editors do behave
as claimed: their resolution is independent of the path-owner value, and
`alice`, a maintainer (but not owner) of `bob`'s package `pkg`, gets
`Http404` from each of them. -/
theorem mutating_editors_keyerror
    (pathOwner pathOwner' requester pkgName version : String)
    (packages : List Package) (releases : List Release) :
    (releasesManageResolve pathOwner requester pkgName version packages
        releases = .error .keyError ∧
     manageMetadataResolve pathOwner requester pkgName version packages
        releases = .error .keyError) ∧
    (manageFilesResolve pathOwner requester pkgName version packages
        releases =
      manageFilesResolve pathOwner' requester pkgName version packages
        releases ∧
     uploadFileResolve pathOwner requester pkgName version packages
        releases =
      uploadFileResolve pathOwner' requester pkgName version packages
        releases ∧
     manageVersionsResolve pathOwner requester pkgName packages =
      manageVersionsResolve pathOwner' requester pkgName packages) ∧
    (manageFilesResolve "bob" "alice" "pkg" "1.0" [pkgShared] [rel10] =
       .error (.http404 "No Package matches the given query.") ∧
     uploadFileResolve "bob" "alice" "pkg" "1.0" [pkgShared] [rel10] =
       .error (.http404 "No Package matches the given query.") ∧
     manageVersionsResolve "bob" "alice" "pkg" [pkgShared] =
       .error (.http404 "No Package matches the given query.")) :=
  ⟨⟨rfl, rfl⟩, ⟨rfl, rfl, rfl⟩, ⟨rfl, rfl, rfl⟩⟩

end Userpypi
